import Mathlib

/-!
Verification development for the HevyStats enrichment and volume-computation
pipeline.  The definitions below are a shallow embedding of
`src/data_loader.py` (class `HevyDataLoader`) and of
`calculate_current_streak` from `app.py`.

Modelling conventions:
* timestamps are integers counting minutes since the Unix epoch (the code
  works with pandas timestamps; only ordering, the calendar date and ISO week
  arithmetic matter to the pipeline);
* pandas `NaN` cells of numeric columns are modelled as `Option ℚ` with
  `none` for a missing value; float arithmetic is modelled over `ℚ`;
* a dataframe is a `List` of typed row structures, kept in source order;
* a missing optional file is an `Option _` that is `none`.
-/

namespace HevyStats

/-- Row of `workout_data.csv` after datetime parsing and numeric coercion
(`HevyDataLoader.load_workout_data`). -/
structure RawSet where
  exercise_title : String
  set_type : Option String
  start_time : Int
  end_time : Int
  weight_kg : Option ℚ
  reps : Option ℚ
  distance_km : Option ℚ
  duration_seconds : Option ℚ
  rpe : Option ℚ
deriving Repr, DecidableEq

/-- One entry of the exercise metadata catalog (`exercise_database.json`);
each field may be absent from the JSON object. -/
structure ExerciseMeta where
  muscle_group : Option String
  weight_type : Option String
  gym_dependent : Option Bool
deriving Repr, DecidableEq

/-- Row of `bodyweight_data.csv` after date parsing. -/
structure BWRow where
  date : Int
  weight_kg : ℚ
deriving Repr, DecidableEq

/-- Row of `gyms.csv` after date parsing. -/
structure GymRow where
  date : Int
  gym : String
deriving Repr, DecidableEq

/-- Row of `routine.csv` after date parsing; `routine_label` may be `NaN`. -/
structure RoutineRow where
  date : Int
  routine_id : String
  routine_label : Option String
deriving Repr, DecidableEq

/-- In-memory state of a `HevyDataLoader` after the `load_*` calls. -/
structure Loader where
  workout_data : Option (List RawSet)
  exercise_database : List (String × ExerciseMeta)
  excluded_exercises : List String
  bodyweight_data : Option (List BWRow)
  gym_data : Option (List GymRow)
  routines_data : Option (List RoutineRow)
  has_set_type : Bool
deriving Repr, DecidableEq

/-! Calendar arithmetic.  Python `datetime` uses the proleptic Gregorian
calendar; the two conversions below are the standard civil-day algorithms,
written with floor division (valid on the nonnegative epoch range the
pipeline works in).  Days count from 1970-01-01. -/

/-- Day number of a Gregorian calendar date (days since 1970-01-01). -/
def daysFromCivil (y m d : Int) : Int :=
  let y2 := if m ≤ 2 then y - 1 else y
  let era := y2 / 400
  let yoe := y2 - era * 400
  let doy := (153 * (m + (if 2 < m then -3 else 9)) + 2) / 5 + d - 1
  let doe := yoe * 365 + yoe / 4 - yoe / 100 + doy
  era * 146097 + doe - 719468

/-- Gregorian calendar date of a day number (inverse of `daysFromCivil`). -/
def civilFromDays (z0 : Int) : Int × Int × Int :=
  let z := z0 + 719468
  let era := z / 146097
  let doe := z - era * 146097
  let yoe := (doe - doe / 1460 + doe / 36524 - doe / 146096) / 365
  let y := yoe + era * 400
  let doy := doe - (365 * yoe + yoe / 4 - yoe / 100)
  let mp := (5 * doy + 2) / 153
  let d := doy - (153 * mp + 2) / 5 + 1
  let m := mp + (if mp < 10 then 3 else -9)
  (if m ≤ 2 then y + 1 else y, m, d)

/-- Calendar day of a timestamp in minutes (`pandas .dt.date`). -/
def dayOf (t : Int) : Int := Int.fdiv t 1440

/-- Midnight timestamp of the calendar day of `t`; models
`pd.Timestamp(row.workout_date)` built from `start_time.dt.date`. -/
def dateMidnight (t : Int) : Int := dayOf t * 1440

/-- Two-digit zero padding used by `strftime`. -/
def pad2 (n : Int) : String := if n < 10 then "0" ++ toString n else toString n

/-- Date formatting `strftime` with format string year-month-day. -/
def fmtYmd (t : Int) : String :=
  let c := civilFromDays (dayOf t)
  toString c.1 ++ "-" ++ pad2 c.2.1 ++ "-" ++ pad2 c.2.2

/-! ISO 8601 week arithmetic (Python `date.isocalendar` and
`datetime.fromisocalendar`).  Weeks start on Monday; week 1 of a year is the
week containing January 4. -/

/-- Day number of the Monday of ISO week 1 of year `y`. -/
def isoWeek1Monday (y : Int) : Int :=
  let j4 := daysFromCivil y 1 4
  j4 - (j4 + 3) % 7

/-- Day number of the Monday of the ISO week `(year, week)`;
models `datetime.fromisocalendar(year, week, 1)`. -/
def isoWeekMonday (p : Int × Int) : Int := isoWeek1Monday p.1 + 7 * (p.2 - 1)

/-- ISO `(year, week)` of the day number `z`; models `date.isocalendar`. -/
def isoYearWeek (z : Int) : Int × Int :=
  let monday := z - (z + 3) % 7
  let y := (civilFromDays (monday + 3)).1
  (y, (monday - isoWeek1Monday y) / 7 + 1)

/-! Exercise catalog lookup: `self.exercise_database.get(exercise, dict()).get(field, default)`. -/

/-- Catalog entry for an exercise name, if present. -/
def lookupMeta (db : List (String × ExerciseMeta)) (ex : String) : Option ExerciseMeta :=
  (db.find? (fun p => p.1 == ex)).map (fun p => p.2)

/-- Muscle group of an exercise, defaulting to `"unknown"`. -/
def metaMuscle (db : List (String × ExerciseMeta)) (ex : String) : String :=
  match lookupMeta db ex with
  | none => "unknown"
  | some m => m.muscle_group.getD "unknown"

/-- Weight type of an exercise, defaulting to `"unknown"`. -/
def metaWeightType (db : List (String × ExerciseMeta)) (ex : String) : String :=
  match lookupMeta db ex with
  | none => "unknown"
  | some m => m.weight_type.getD "unknown"

/-- Gym dependence of an exercise, defaulting to `false`. -/
def metaGymDependent (db : List (String × ExerciseMeta)) (ex : String) : Bool :=
  match lookupMeta db ex with
  | none => false
  | some m => m.gym_dependent.getD false

/-! Temporal as-of lookups.  The shared pattern in the source is
`candidates = frame[frame.date <= dt]` followed by `candidates.iloc[-1]`,
which on a list is filtering and then taking the last element. -/

/-- Bodyweight resolution, `HevyDataLoader.get_bodyweight_for_date`:
`70.0` when no bodyweight frame was loaded; within a loaded frame, the last
row (in frame order) dated on or before the query, falling back to the first
row of the frame, or `70.0` for an empty frame. -/
def get_bodyweight_for_date (bw : Option (List BWRow)) (workout_date : Int) : ℚ :=
  match bw with
  | none => 70
  | some rows =>
    match (rows.filter (fun r => decide (r.date ≤ workout_date))).getLast? with
    | some r => r.weight_kg
    | none =>
      match rows.head? with
      | some r => r.weight_kg
      | none => 70

/-- Gym resolution, the inner `get_gym` closure of `process_data`:
latest gym entry dated on or before the workout timestamp, else `"Unknown"`. -/
def get_gym (gym_data : List GymRow) (dt : Int) : String :=
  match (gym_data.filter (fun r => decide (r.date ≤ dt))).getLast? with
  | none => "Unknown"
  | some r => r.gym

/-- Whitespace stripping of Python `str.strip`. -/
def pyStrip (s : String) : String :=
  String.mk (((s.data.dropWhile Char.isWhitespace).reverse.dropWhile Char.isWhitespace).reverse)

/-- Display label of a routine row: `routine_label` when present and
non-blank, otherwise `routine_id` (the label logic of `get_fmt_routine`). -/
def display_label (r : RoutineRow) : String :=
  match r.routine_label with
  | some s => if pyStrip s ≠ "" then s else r.routine_id
  | none => r.routine_id

/-- Routine entry resolved as of `dt`: `cand.iloc[-1]` of the candidate
rows dated on or before `dt` in `get_fmt_routine`. -/
def routine_curr (routines : List RoutineRow) (dt : Int) : Option RoutineRow :=
  (routines.filter (fun r => decide (r.date ≤ dt))).getLast?

/-- Routine resolution, the inner `get_fmt_routine` closure of
`process_data`: the display label of the routine active at `dt` together
with its validity window, or `"Unknown"` before any routine. -/
def get_fmt_routine (routines : List RoutineRow) (dt : Int) : String :=
  match routine_curr routines dt with
  | none => "Unknown"
  | some curr =>
    let end_date :=
      match (routines.filter (fun r => decide (curr.date < r.date))).head? with
      | none => "Present"
      | some n => fmtYmd n.date
    display_label curr ++ " (" ++ fmtYmd curr.date ++ " - " ++ end_date ++ ")"

/-! Sorting by date (`DataFrame.sort_values` on the date column); a plain
stable insertion sort on the date key. -/

/-- Insertion of one element into a list sorted ascending by `key`. -/
def insertSorted {α : Type} (key : α → Int) (x : α) : List α → List α
  | [] => [x]
  | y :: ys => if key x ≤ key y then x :: y :: ys else y :: insertSorted key x ys

/-- Stable sort ascending by `key`. -/
def sortByKey {α : Type} (key : α → Int) : List α → List α
  | [] => []
  | x :: xs => insertSorted key x (sortByKey key xs)

/-! Filter stage of `process_data`: excluded exercises, then warm-up sets. -/

/-- Excluded-exercise drop; the source guards the drop behind a truthiness
check of the exclusion set. -/
def filterExcluded (excluded : List String) (rows : List RawSet) : List RawSet :=
  if excluded.isEmpty then rows
  else rows.filter (fun r => !decide (r.exercise_title ∈ excluded))

/-- Warm-up drop, applied only when the `set_type` column exists. -/
def filterWarmup (hasSetType : Bool) (rows : List RawSet) : List RawSet :=
  if hasSetType then rows.filter (fun r => !decide (r.set_type = some "warmup")) else rows

/-- Whole filter stage (steps 1 and 2 of `process_data`). -/
def filterStage (excluded : List String) (hasSetType : Bool) (rows : List RawSet) : List RawSet :=
  filterWarmup hasSetType (filterExcluded excluded rows)

/-- Single predicate equivalent of the filter stage: keep a set iff its
exercise is not excluded and it is not a warm-up set (the latter only when
the `set_type` column exists). -/
def stagePred (excluded : List String) (hasSetType : Bool) (r : RawSet) : Bool :=
  !decide (r.exercise_title ∈ excluded) && !(hasSetType && decide (r.set_type = some "warmup"))

/-! Volume calculation (step 4 of `process_data`).  The source initialises
the volume column to `0.0`, assigns the standard and double-weight formulas
by masks (where a `NaN` in `reps` propagates and is zeroed by the final
`fillna(0)`), computes the three bodyweight-dependent types row by row with
explicit zero coercions, and finally applies `fillna(0)`. -/

/-- Row volume for the three bodyweight-dependent weight types (the body of
the `iterrows` loop in `process_data`). -/
def bwVol (bw : ℚ) (wt : String) (r : RawSet) : ℚ :=
  let weight := r.weight_kg.getD 0
  let reps := r.reps.getD 0
  if wt = "assisted" then (bw - weight) * reps
  else if wt = "bodyweight" then bw * reps
  else if wt = "weighted_bodyweight" then (bw + weight) * reps
  else 0

/-- Bodyweight resolved for a raw set, keyed on the midnight timestamp of
its session date. -/
def resolvedBW (L : Loader) (r : RawSet) : ℚ :=
  get_bodyweight_for_date L.bodyweight_data (dateMidnight r.start_time)

/-- Volume of one raw set as computed by step 4 of `process_data`
(mask dispatch plus the final `fillna(0)`). -/
def volumeOf (L : Loader) (r : RawSet) : ℚ :=
  let wt := metaWeightType L.exercise_database r.exercise_title
  if wt = "double_weight" then
    (r.reps.map (fun rv => r.weight_kg.getD 0 * 2 * rv)).getD 0
  else if wt = "assisted" ∨ wt = "bodyweight" ∨ wt = "weighted_bodyweight" then
    bwVol (resolvedBW L r) wt r
  else
    (r.reps.map (fun rv => r.weight_kg.getD 0 * rv)).getD 0

/-- Enriched set record: the raw row plus the columns added by `process_data`. -/
structure EnrichedSet where
  raw : RawSet
  muscle_group : String
  weight_type : String
  gym_dependent : Bool
  gym : String
  routine_name : String
  workout_date : Int
  volume : ℚ
deriving Repr, DecidableEq

/-- Gym column value for a workout timestamp (gym mapping of `process_data`). -/
def gymOf (L : Loader) (dt : Int) : String :=
  match L.gym_data with
  | none => "Unknown"
  | some rows =>
    if rows.isEmpty then "Unknown"
    else get_gym (sortByKey GymRow.date rows) dt

/-- Routine column value for a workout timestamp (routine mapping of
`process_data`). -/
def routineOf (L : Loader) (dt : Int) : String :=
  match L.routines_data with
  | none => "Unknown"
  | some rows =>
    if rows.isEmpty then "Unknown"
    else get_fmt_routine (sortByKey RoutineRow.date rows) dt

/-- Enrichment of one surviving raw set (steps 3 and 4 of `process_data`). -/
def enrichRow (L : Loader) (r : RawSet) : EnrichedSet :=
  { raw := r
    muscle_group := metaMuscle L.exercise_database r.exercise_title
    weight_type := metaWeightType L.exercise_database r.exercise_title
    gym_dependent := metaGymDependent L.exercise_database r.exercise_title
    gym := gymOf L r.start_time
    routine_name := routineOf L r.start_time
    workout_date := dateMidnight r.start_time
    volume := volumeOf L r }

/-- Whole enrichment pipeline `HevyDataLoader.process_data`: a no-op when no
workout data was loaded, otherwise the filter stage followed by per-row
enrichment, in source order. -/
def process_data (L : Loader) : List EnrichedSet :=
  match L.workout_data with
  | none => []
  | some rows => (filterStage L.excluded_exercises L.has_set_type rows).map (enrichRow L)

/-! Loading (`HevyDataLoader.load_all`).  The file system is modelled as the
optional presence of each typed source; the mandatory workout log carries a
flag telling whether its `set_type` column exists. -/

/-- Presence and contents of the data files consumed by `load_all`. -/
structure FS where
  workout : Option (List RawSet × Bool)
  catalog : Option (List (String × ExerciseMeta) × List String)
  bodyweight : Option (List BWRow)
  gym : Option (List GymRow)
  routines : Option (List RoutineRow)
deriving Repr, DecidableEq

/-- Warning printed by `load_exercise_database` when the catalog is missing. -/
def catalogWarning : String := "Warning: Exercise database not found"

/-- Error raised by `load_workout_data` when the set log is missing. -/
def workoutError : String := "Workout data not found"

/-- Loader construction of `load_all` up to `process_data`: the catalog is
loaded first (warning on absence), a missing set log raises, the optional
series are loaded when present, with the gym and routine frames sorted by
date and the bodyweight frame kept in source order. -/
def load_all (fs : FS) : Except String (Loader × List String) :=
  match fs.workout with
  | none => Except.error workoutError
  | some w =>
    match fs.catalog with
    | none =>
      Except.ok
        ({ workout_data := some w.1
           exercise_database := []
           excluded_exercises := []
           bodyweight_data := fs.bodyweight
           gym_data := fs.gym.map (sortByKey GymRow.date)
           routines_data := fs.routines.map (sortByKey RoutineRow.date)
           has_set_type := w.2 }, [catalogWarning])
    | some c =>
      Except.ok
        ({ workout_data := some w.1
           exercise_database := c.1
           excluded_exercises := c.2
           bodyweight_data := fs.bodyweight
           gym_data := fs.gym.map (sortByKey GymRow.date)
           routines_data := fs.routines.map (sortByKey RoutineRow.date)
           has_set_type := w.2 }, [])

/-- Loading followed by the enrichment pipeline. -/
def run_pipeline (fs : FS) : Except String (List EnrichedSet × List String) :=
  match load_all fs with
  | Except.error e => Except.error e
  | Except.ok lw => Except.ok (process_data lw.1, lw.2)

/-! Weekly streak, `calculate_current_streak` from `app.py`. -/

/-- ISO `(year, week)` pair of a raw set. -/
def weekOfRow (r : RawSet) : Int × Int := isoYearWeek (dayOf r.start_time)

/-- Descending lexicographic comparison on `(year, week)` pairs, as used by
`sorted(..., reverse=True)` on tuples. -/
def lexGeB (a b : Int × Int) : Bool :=
  decide (b.1 < a.1) || (decide (a.1 = b.1) && decide (b.2 ≤ a.2))

/-- Insertion into a descending lexicographically sorted list of pairs. -/
def insertWeekDesc (x : Int × Int) : List (Int × Int) → List (Int × Int)
  | [] => [x]
  | y :: ys => if lexGeB x y then x :: y :: ys else y :: insertWeekDesc x ys

/-- Sort `(year, week)` pairs descending lexicographically. -/
def sortWeeksDesc : List (Int × Int) → List (Int × Int)
  | [] => []
  | x :: xs => insertWeekDesc x (sortWeeksDesc xs)

/-- Distinct `(year, week)` pairs of the collection, sorted descending:
`sorted(list(set(zip(iso.year, iso.week))), reverse=True)`. -/
def sortedDescWeeks (rows : List RawSet) : List (Int × Int) :=
  sortWeeksDesc ((rows.map weekOfRow).dedup)

/-- Week distance of the helper `weeks_diff`: absolute day difference of the
two ISO Mondays, floor-divided by 7. -/
def weeksDiff (p q : Int × Int) : Nat :=
  (isoWeekMonday p - isoWeekMonday q).natAbs / 7

/-- Backward walk of `calculate_current_streak`: extend the streak while
consecutive distinct weeks are exactly one week apart, stop otherwise. -/
def streakWalk : Int × Int → List (Int × Int) → Nat → Nat
  | _, [], acc => acc
  | c, p :: r, acc => if weeksDiff c p = 1 then streakWalk p r (acc + 1) else acc

/-- Weekly streak of `app.calculate_current_streak`, given the collection
and the current ISO `(year, week)` pair. -/
def calculate_current_streak (rows : List RawSet) (today : Int × Int) : Nat :=
  if rows.isEmpty then 0
  else
    match sortedDescWeeks rows with
    | [] => 0
    | last :: rest =>
      if 1 < weeksDiff today last then 0
      else streakWalk last rest 1

/-! Specification-side definitions, written from the words of the spec and
of the claims; they are compared with the code-side definitions above. -/

/-- Length of the run of consecutive weeks following the current week:
counts while successive distinct pairs are exactly one ISO week apart,
stopping at the first other gap. -/
def runAfter : Int × Int → List (Int × Int) → Nat
  | _, [] => 0
  | c, p :: r => if weeksDiff c p = 1 then 1 + runAfter p r else 0

/-- Signed number of ISO weeks by which the pair `last` lies behind the pair
`today` (positive when `last` is in the past). -/
def weeksBehind (today last : Int × Int) : Int :=
  (isoWeekMonday today - isoWeekMonday last) / 7

/-- Modelled from the claim wording: streak is `0` when the most recent
`(year, week)` pair is more than one ISO week *behind* the current pair,
otherwise the length of the initial run of distinct pairs walked descending
with consecutive pairs exactly one week apart. -/
def streakClaimText (rows : List RawSet) (today : Int × Int) : Nat :=
  match sortedDescWeeks rows with
  | [] => 0
  | last :: rest => if 1 < weeksBehind today last then 0 else 1 + runAfter last rest

/-- Amended streak specification: as `streakClaimText`, but the gap between
the current pair and the most recent pair is measured as an absolute
distance, so future data more than one week ahead also gives `0`. -/
def streakAmended (rows : List RawSet) (today : Int × Int) : Nat :=
  match sortedDescWeeks rows with
  | [] => 0
  | last :: rest => if 1 < weeksDiff today last then 0 else 1 + runAfter last rest

/-- Dispatch table of the volume specification: one closed formula per
weight type, with weight and reps already coerced to `0` when absent. -/
def dispatchVolume (wt : String) (w r bw : ℚ) : ℚ :=
  if wt = "double_weight" then w * 2 * r
  else if wt = "assisted" then (bw - w) * r
  else if wt = "bodyweight" then bw * r
  else if wt = "weighted_bodyweight" then (bw + w) * r
  else w * r

/-- Volume as a pure function of exactly the weight type, the optional
weight, the optional reps and the resolved bodyweight. -/
def volumePure (wt : String) (w r : Option ℚ) (bw : ℚ) : ℚ :=
  dispatchVolume wt (w.getD 0) (r.getD 0) bw

/-! Concrete fixtures used by witness and counterexample theorems. -/

/-- Raw set with the given start timestamp. -/
def mkSet (t : Int) : RawSet :=
  { exercise_title := "Bench", set_type := some "normal", start_time := t, end_time := t + 60,
    weight_kg := some 100, reps := some 5, distance_km := none, duration_seconds := none,
    rpe := none }

/-- Sets in ISO weeks 2024-W10, 2024-W09, 2024-W08 and 2024-W05. -/
def streakExampleRows : List RawSet :=
  [mkSet (daysFromCivil 2024 3 4 * 1440), mkSet (daysFromCivil 2024 2 26 * 1440),
   mkSet (daysFromCivil 2024 2 19 * 1440), mkSet (daysFromCivil 2024 1 29 * 1440)]

/-- Set in ISO week 2024-W10. -/
def streakLateRow : RawSet := mkSet (daysFromCivil 2024 3 4 * 1440)

/-- Set in ISO week 2024-W13 (later than a current week of 2024-W10). -/
def streakFutureRow : RawSet := mkSet (daysFromCivil 2024 3 25 * 1440)

/-- Small exercise catalog fixture. -/
def exDB : List (String × ExerciseMeta) :=
  [("Pull Up", { muscle_group := some "back", weight_type := some "bodyweight",
                 gym_dependent := some false }),
   ("Bench", { muscle_group := some "chest", weight_type := some "standard",
               gym_dependent := some true })]

/-- Bodyweight series fixture. -/
def bwRowsW : List BWRow := [{ date := 0, weight_kg := 80 }, { date := 2880, weight_kg := 82 }]

/-- Gym series fixture. -/
def gymRowsW : List GymRow := [{ date := 0, gym := "A" }, { date := 2880, gym := "B" }]

/-- Routine series fixture. -/
def rRowsW : List RoutineRow :=
  [{ date := 0, routine_id := "PPL", routine_label := some "Push Pull Legs" },
   { date := 2880, routine_id := "UL", routine_label := none }]

/-- Raw bodyweight-typed set fixture. -/
def rawPull : RawSet :=
  { exercise_title := "Pull Up", set_type := some "normal", start_time := 1500, end_time := 1560,
    weight_kg := none, reps := some 10, distance_km := none, duration_seconds := none,
    rpe := none }

/-- Loader fixture with every source present. -/
def L0 : Loader :=
  { workout_data := some [rawPull], exercise_database := exDB, excluded_exercises := ["Running"],
    bodyweight_data := some bwRowsW, gym_data := some gymRowsW, routines_data := some rRowsW,
    has_set_type := true }

/-- Enriched fixture row: the single surviving set of `L0`. -/
def e0 : EnrichedSet := enrichRow L0 rawPull

/-- Bodyweight series whose only sample is dated after the epoch query. -/
def bwCexRows : List BWRow := [{ date := 1000, weight_kg := 80 }]

/-- File system fixture: set log present, all optional sources missing. -/
def fsW : FS :=
  { workout := some ([rawPull], true), catalog := none, bodyweight := none, gym := none,
    routines := none }

/-- Loader produced by `load_all` on `fsW`. -/
def LW : Loader :=
  { workout_data := some [rawPull], exercise_database := [], excluded_exercises := [],
    bodyweight_data := none, gym_data := none, routines_data := none, has_set_type := true }

/-! Helper lemmas shared by the claim theorems. -/

/-- Helper: the excluded-exercise pass is one filter, truthiness guard
included. -/
theorem filterExcluded_eq (excluded : List String) (rows : List RawSet) :
    filterExcluded excluded rows
      = rows.filter (fun r => !decide (r.exercise_title ∈ excluded)) := by
  unfold filterExcluded
  split
  · next h =>
    have hex : excluded = [] := List.isEmpty_iff.mp h
    subst hex
    simp
  · rfl

/-- Helper: the warm-up pass is one filter, column guard included. -/
theorem filterWarmup_eq (hs : Bool) (rows : List RawSet) :
    filterWarmup hs rows
      = rows.filter (fun r => !(hs && decide (r.set_type = some "warmup"))) := by
  unfold filterWarmup
  cases hs
  · simp
  · simp

/-- Helper: the two filter passes equal one filter by the combined
predicate. -/
theorem filterStage_eq_filter (excluded : List String) (hs : Bool) (rows : List RawSet) :
    filterStage excluded hs rows = rows.filter (stagePred excluded hs) := by
  unfold filterStage
  rw [filterExcluded_eq, filterWarmup_eq, List.filter_filter]
  congr 1
  funext a
  simp only [stagePred]
  exact Bool.and_comm _ _

/-- Helper: the filter stage is idempotent. -/
theorem filterStage_idem (excluded : List String) (hs : Bool) (rows : List RawSet) :
    filterStage excluded hs (filterStage excluded hs rows) = filterStage excluded hs rows := by
  simp only [filterStage_eq_filter, List.filter_filter]
  congr 1
  funext a
  exact Bool.and_self _

/-- Helper: the filter stage of an empty frame is empty. -/
theorem filterStage_nil (excluded : List String) (hs : Bool) :
    filterStage excluded hs [] = [] := by
  rw [filterStage_eq_filter]
  rfl

/-- Helper: properties of the shared as-of pattern, filtering a
date-sorted list by dates on or before the query and taking the last
candidate: the selected element is dated on or before the query, its date is
maximal among candidates, and everything after it in the list is dated
strictly after the query. -/
theorem getLast_filter_le_spec {α : Type} (key : α → Int) (dt : Int) :
    ∀ l : List α, List.Pairwise (fun a b => key a ≤ key b) l →
      ∀ c, (l.filter (fun x => decide (key x ≤ dt))).getLast? = some c →
        key c ≤ dt
        ∧ (∀ x ∈ l, key x ≤ dt → key x ≤ key c)
        ∧ ∃ l₁ l₂, l = l₁ ++ c :: l₂ ∧ ∀ x ∈ l₂, dt < key x := by
  intro l
  induction l with
  | nil => intro _ c hc; simp at hc
  | cons a t ih =>
    intro hp c hc
    rw [List.pairwise_cons] at hp
    obtain ⟨ha, ht⟩ := hp
    rw [List.filter_cons] at hc
    by_cases hpa : key a ≤ dt
    · rw [if_pos (by simpa using hpa)] at hc
      cases hft : t.filter (fun x => decide (key x ≤ dt)) with
      | nil =>
        rw [hft] at hc
        simp only [List.getLast?_singleton, Option.some.injEq] at hc
        subst hc
        refine ⟨hpa, ?_, [], t, rfl, ?_⟩
        · intro x hx hxle
          rcases List.mem_cons.mp hx with rfl | hx
          · exact le_refl _
          · exact absurd (by simpa using List.filter_eq_nil_iff.mp hft x hx) (not_not_intro hxle)
        · intro x hx
          exact not_le.mp (by simpa using List.filter_eq_nil_iff.mp hft x hx)
      | cons b u =>
        rw [hft, List.getLast?_cons_cons, ← hft] at hc
        obtain ⟨h1, h2, l₁, l₂, heq, h3⟩ := ih ht c hc
        refine ⟨h1, ?_, a :: l₁, l₂, by rw [heq]; rfl, h3⟩
        intro x hx hxle
        rcases List.mem_cons.mp hx with rfl | hx
        · have hct : c ∈ t := by
            rw [heq]
            exact List.mem_append_right _ (List.mem_cons_self _ _)
          exact ha c hct
        · exact h2 x hx hxle
    · rw [if_neg (by simpa using hpa)] at hc
      obtain ⟨h1, h2, l₁, l₂, heq, h3⟩ := ih ht c hc
      refine ⟨h1, ?_, a :: l₁, l₂, by rw [heq]; rfl, h3⟩
      intro x hx hxle
      rcases List.mem_cons.mp hx with rfl | hx
      · exact absurd hxle hpa
      · exact h2 x hx hxle

/-- Helper: the row volume of `process_data` equals the dispatch-table
formula of the specification. -/
theorem volumeOf_eq_dispatch (L : Loader) (r : RawSet) :
    volumeOf L r
      = dispatchVolume (metaWeightType L.exercise_database r.exercise_title)
          (r.weight_kg.getD 0) (r.reps.getD 0) (resolvedBW L r) := by
  unfold volumeOf dispatchVolume bwVol
  generalize metaWeightType L.exercise_database r.exercise_title = wt
  by_cases h1 : wt = "double_weight"
  · subst h1
    rw [if_pos rfl, if_pos rfl]
    cases hr : r.reps <;> simp
  · by_cases h2 : wt = "assisted"
    · subst h2
      rw [if_neg (by decide), if_pos (Or.inl rfl), if_pos rfl, if_neg (by decide), if_pos rfl]
    · by_cases h3 : wt = "bodyweight"
      · subst h3
        rw [if_neg (by decide), if_pos (Or.inr (Or.inl rfl)), if_neg (by decide), if_pos rfl,
          if_neg (by decide), if_neg (by decide), if_pos rfl]
      · by_cases h4 : wt = "weighted_bodyweight"
        · subst h4
          rw [if_neg (by decide), if_pos (Or.inr (Or.inr rfl)), if_neg (by decide),
            if_neg (by decide), if_pos rfl, if_neg (by decide), if_neg (by decide),
            if_neg (by decide), if_pos rfl]
        · have hor : ¬(wt = "assisted" ∨ wt = "bodyweight" ∨ wt = "weighted_bodyweight") := by
            tauto
          rw [if_neg h1, if_neg hor, if_neg h1, if_neg h2, if_neg h3, if_neg h4]
          cases hr : r.reps <;> simp

/-- Helper: the accumulator walk of the streak loop counts the initial run. -/
theorem streakWalk_eq_runAfter :
    ∀ (rest : List (Int × Int)) (curr : Int × Int) (acc : Nat),
      streakWalk curr rest acc = acc + runAfter curr rest := by
  intro rest
  induction rest with
  | nil => intro curr acc; simp [streakWalk, runAfter]
  | cons p r ih =>
    intro curr acc
    by_cases h : weeksDiff curr p = 1
    · simp only [streakWalk, runAfter, if_pos h, ih]
      omega
    · simp [streakWalk, runAfter, h]

/-- Helper: rows enriched with an absent gym series carry gym `"Unknown"`. -/
theorem gym_unknown_of_none {L : Loader} (hg : L.gym_data = none) :
    ∀ e ∈ process_data L, e.gym = "Unknown" := by
  intro e he
  simp only [process_data] at he
  rcases hw : L.workout_data with _ | rows <;> rw [hw] at he
  · simp at he
  · obtain ⟨r, _, rfl⟩ := List.mem_map.mp he
    simp [enrichRow, gymOf, hg]

/-- Helper: rows enriched with an absent routine series carry routine
`"Unknown"`. -/
theorem routine_unknown_of_none {L : Loader} (hg : L.routines_data = none) :
    ∀ e ∈ process_data L, e.routine_name = "Unknown" := by
  intro e he
  simp only [process_data] at he
  rcases hw : L.workout_data with _ | rows <;> rw [hw] at he
  · simp at he
  · obtain ⟨r, _, rfl⟩ := List.mem_map.mp he
    simp [enrichRow, routineOf, hg]

/-! Claim theorems. -/

/-- C1: every set surviving the filter stage carries a volume equal to the
dispatch-table formula for its weight type — standard, unknown or any other
non-special value give weight times reps; double weight doubles the weight;
assisted subtracts the weight from the resolved bodyweight; bodyweight
multiplies the resolved bodyweight by reps; weighted bodyweight adds the
weight to the resolved bodyweight — with an absent weight or reps treated as
zero, and the volume always defined (never null). -/
theorem volume_matches_dispatch_table (L : Loader) (e : EnrichedSet)
    (he : e ∈ process_data L) :
    e.volume
      = dispatchVolume e.weight_type (e.raw.weight_kg.getD 0) (e.raw.reps.getD 0)
          (resolvedBW L e.raw) := by
  simp only [process_data] at he
  rcases hw : L.workout_data with _ | rows <;> rw [hw] at he
  · simp at he
  · obtain ⟨r, _, rfl⟩ := List.mem_map.mp he
    simpa [enrichRow] using volumeOf_eq_dispatch L r

/-- C1 witness: the theorem applied to the concrete loader `L0` and its
single enriched row `e0`. -/
theorem volume_matches_dispatch_table_witness :
    e0.volume
      = dispatchVolume e0.weight_type (e0.raw.weight_kg.getD 0) (e0.raw.reps.getD 0)
          (resolvedBW L0 e0.raw) :=
  volume_matches_dispatch_table L0 e0 (by
    have h : process_data L0 = [e0] := rfl
    rw [h]
    exact List.mem_cons_self e0 [])

/-- C7: the enrichment pipeline is deterministic — it is a pure function of
the loader state, each volume is a function of exactly the weight type, the
weight, the reps and the resolved bodyweight, and re-enriching the raw
projection of an already enriched collection reproduces identical volumes. -/
theorem pipeline_deterministic :
    (∀ L : Loader, process_data L = process_data L)
    ∧ (∀ (L : Loader) (r : RawSet),
        volumeOf L r
          = volumePure (metaWeightType L.exercise_database r.exercise_title)
              r.weight_kg r.reps (resolvedBW L r))
    ∧ (∀ L : Loader,
        (process_data
            { L with workout_data := some ((process_data L).map EnrichedSet.raw) }).map
            EnrichedSet.volume
          = (process_data L).map EnrichedSet.volume) := by
  refine ⟨fun L => rfl, fun L r => volumeOf_eq_dispatch L r, fun L => ?_⟩
  rcases hw : L.workout_data with _ | rows
  · have h0 : process_data L = [] := by simp [process_data, hw]
    rw [h0]
    have h1 : process_data
        { L with workout_data := some (([] : List EnrichedSet).map EnrichedSet.raw) }
        = (filterStage L.excluded_exercises L.has_set_type []).map (enrichRow L) := rfl
    rw [h1, filterStage_nil]
    rfl
  · have h1 : process_data L
        = (filterStage L.excluded_exercises L.has_set_type rows).map (enrichRow L) := by
      simp [process_data, hw]
    rw [h1, List.map_map]
    have hcomp : EnrichedSet.raw ∘ enrichRow L = id := funext fun r => rfl
    rw [hcomp, List.map_id]
    have h2 : process_data
        { L with
          workout_data := some (filterStage L.excluded_exercises L.has_set_type rows) }
        = (filterStage L.excluded_exercises L.has_set_type
            (filterStage L.excluded_exercises L.has_set_type rows)).map (enrichRow L) := rfl
    rw [h2, filterStage_idem]

/-- C8: the filter stage is idempotent — applying the excluded-exercise drop
and the warm-up drop to already filtered output drops nothing further. -/
theorem filter_stage_idempotent (excluded : List String) (hs : Bool) (rows : List RawSet) :
    filterStage excluded hs (filterStage excluded hs rows) = filterStage excluded hs rows :=
  filterStage_idem excluded hs rows

/-- C4: the filter stage returns exactly the subsequence of sets whose
exercise is not excluded and which are not warm-up sets (no warm-up drop
when the column is absent), order-preserving and without modifying any
surviving record (it is a sublist of the input); consequently no excluded or
warm-up set reaches the enriched dataset. -/
theorem filter_stage_subsequence (excluded : List String) (hs : Bool) (rows : List RawSet)
    (L : Loader) (e : EnrichedSet) (he : e ∈ process_data L) :
    filterStage excluded hs rows = rows.filter (stagePred excluded hs)
    ∧ List.Sublist (filterStage excluded hs rows) rows
    ∧ e.raw.exercise_title ∉ L.excluded_exercises
    ∧ (L.has_set_type = true → e.raw.set_type ≠ some "warmup") := by
  have hmain : e.raw.exercise_title ∉ L.excluded_exercises
      ∧ (L.has_set_type = true → e.raw.set_type ≠ some "warmup") := by
    simp only [process_data] at he
    rcases hw : L.workout_data with _ | wr <;> rw [hw] at he
    · simp at he
    · obtain ⟨r, hr, rfl⟩ := List.mem_map.mp he
      rw [filterStage_eq_filter] at hr
      have hp := (List.mem_filter.mp hr).2
      simp only [stagePred, Bool.and_eq_true, Bool.not_eq_true'] at hp
      obtain ⟨hp1, hp2⟩ := hp
      refine ⟨of_decide_eq_false hp1, ?_⟩
      intro hst
      rw [hst] at hp2
      simp only [Bool.true_and] at hp2
      exact of_decide_eq_false hp2
  exact ⟨filterStage_eq_filter excluded hs rows,
    by rw [filterStage_eq_filter]; exact List.filter_sublist rows, hmain.1, hmain.2⟩

/-- C4 witness: the theorem applied at the concrete exclusion list, raw rows
and enriched fixture row of `L0`. -/
theorem filter_stage_subsequence_witness :
    filterStage ["Running"] true [rawPull] = [rawPull].filter (stagePred ["Running"] true)
    ∧ List.Sublist (filterStage ["Running"] true [rawPull]) [rawPull]
    ∧ e0.raw.exercise_title ∉ L0.excluded_exercises
    ∧ (L0.has_set_type = true → e0.raw.set_type ≠ some "warmup") :=
  filter_stage_subsequence ["Running"] true [rawPull] L0 e0 (by
    have h : process_data L0 = [e0] := rfl
    rw [h]
    exact List.mem_cons_self e0 [])

/-- C5 (amended): for every collection and current week, the computed weekly
streak equals the specification walk in which the streak is `0` when the
most recent distinct ISO week pair is more than one ISO week away from the
current pair in absolute distance (the code takes an absolute difference, so
data more than one week in the future also resets the streak), and otherwise
the length of the initial run of distinct pairs, descending, with
consecutive pairs exactly one ISO week apart; the two worked examples of the
specification evaluate as stated. -/
theorem weekly_streak_amended :
    (∀ (rows : List RawSet) (today : Int × Int),
      calculate_current_streak rows today = streakAmended rows today)
    ∧ calculate_current_streak streakExampleRows (2024, 10) = 3
    ∧ calculate_current_streak [streakLateRow] (2024, 13) = 0 := by
  refine ⟨?_, by decide, by decide⟩
  intro rows today
  unfold calculate_current_streak streakAmended
  by_cases hr : rows.isEmpty
  · have hnil : rows = [] := List.isEmpty_iff.mp hr
    subst hnil
    simp [sortedDescWeeks, sortWeeksDesc]
  · rw [if_neg hr]
    cases hs : sortedDescWeeks rows with
    | nil => rfl
    | cons last rest =>
      dsimp only
      by_cases hgap : 1 < weeksDiff today last
      · rw [if_pos hgap, if_pos hgap]
      · rw [if_neg hgap, if_neg hgap, streakWalk_eq_runAfter]

/-- C5 counterexample: a collection whose only set lies in ISO week
2024-W13, with current week 2024-W10 — the most recent week is not behind
the current week at all, so the claim as stated gives a streak of `1`, yet
the code computes `0`. -/
theorem weekly_streak_behind_counterexample :
    weekOfRow streakFutureRow = (2024, 13)
    ∧ calculate_current_streak [streakFutureRow] (2024, 10) = 0
    ∧ streakClaimText [streakFutureRow] (2024, 10) = 1 :=
  ⟨by decide, by decide, by decide⟩

/-- C2 counterexample: a non-empty bodyweight series whose only sample is
dated strictly after the query timestamp — the resolution returns that
future sample's weight of `80`, not the supplied default `70.0`. -/
theorem asof_before_data_counterexample :
    (∀ r ∈ bwCexRows, (0 : Int) < r.date)
    ∧ get_bodyweight_for_date (some bwCexRows) 0 ≠ 70 := by
  refine ⟨by decide, ?_⟩
  have h : get_bodyweight_for_date (some bwCexRows) 0 = 80 := rfl
  rw [h]
  norm_num

/-- C2 (amended): for the gym and routine series, a query strictly earlier
than every entry returns the default `"Unknown"` and never selects a future
entry; for the bodyweight series the default `70.0` is returned only when
the series is absent or empty — a non-empty series with every sample after
the query instead yields the weight of its first row, a future entry. -/
theorem asof_before_data_amended :
    (∀ (gyms : List GymRow) (dt : Int), (∀ g ∈ gyms, dt < g.date) →
      get_gym gyms dt = "Unknown")
    ∧ (∀ (routines : List RoutineRow) (dt : Int), (∀ r ∈ routines, dt < r.date) →
        get_fmt_routine routines dt = "Unknown")
    ∧ (∀ dt : Int,
        get_bodyweight_for_date none dt = 70 ∧ get_bodyweight_for_date (some []) dt = 70)
    ∧ (∀ (rows : List BWRow) (dt : Int) (r0 : BWRow), rows.head? = some r0 →
        (∀ r ∈ rows, dt < r.date) →
        get_bodyweight_for_date (some rows) dt = r0.weight_kg) := by
  refine ⟨?_, ?_, fun dt => ⟨rfl, rfl⟩, ?_⟩
  · intro gyms dt h
    have hfil : gyms.filter (fun r => decide (r.date ≤ dt)) = [] :=
      List.filter_eq_nil_iff.mpr (fun a ha => by simpa using not_le.mpr (h a ha))
    simp [get_gym, hfil]
  · intro routines dt h
    have hfil : routines.filter (fun r => decide (r.date ≤ dt)) = [] :=
      List.filter_eq_nil_iff.mpr (fun a ha => by simpa using not_le.mpr (h a ha))
    have hcu : routine_curr routines dt = none := by
      unfold routine_curr
      rw [hfil]
      rfl
    simp [get_fmt_routine, hcu]
  · intro rows dt r0 hh h
    have hfil : rows.filter (fun r => decide (r.date ≤ dt)) = [] :=
      List.filter_eq_nil_iff.mpr (fun a ha => by simpa using not_le.mpr (h a ha))
    simp [get_bodyweight_for_date, hfil, hh]

/-- C2 witness: the amended theorem applied at concrete series and a query
earlier than every entry. -/
theorem asof_before_data_amended_witness :
    get_gym gymRowsW (-5) = "Unknown"
    ∧ get_fmt_routine rRowsW (-5) = "Unknown"
    ∧ (get_bodyweight_for_date none (-5) = 70 ∧ get_bodyweight_for_date (some []) (-5) = 70)
    ∧ get_bodyweight_for_date (some bwCexRows) 0 = (80 : ℚ) := by
  have h := asof_before_data_amended
  exact ⟨h.1 gymRowsW (-5) (by decide), h.2.1 rRowsW (-5) (by decide), h.2.2.1 (-5),
    h.2.2.2 bwCexRows 0 { date := 1000, weight_kg := 80 } rfl (by decide)⟩

/-- C3: over a series sorted ascending by date (gym, bodyweight and routine
resolutions alike), the as-of lookup returns the value of the selected
candidate, which is dated on or before the query, carries the maximal date
among candidates, is the last qualifying entry in the original order (ties
on equal dates resolved in favour of the later entry, everything after it
being dated strictly after the query), and a query equal to some entry's
date selects an entry with exactly that date. -/
theorem asof_latest_entry_tiebreak (gyms : List GymRow) (bws : List BWRow)
    (routines : List RoutineRow) (dtg dtb dtr : Int)
    (cg : GymRow) (cb : BWRow) (cr : RoutineRow)
    (hg : List.Pairwise (fun a b => a.date ≤ b.date) gyms)
    (hb : List.Pairwise (fun a b => a.date ≤ b.date) bws)
    (hr : List.Pairwise (fun a b => a.date ≤ b.date) routines)
    (hcg : (gyms.filter (fun r => decide (r.date ≤ dtg))).getLast? = some cg)
    (hcb : (bws.filter (fun r => decide (r.date ≤ dtb))).getLast? = some cb)
    (hcr : routine_curr routines dtr = some cr) :
    (get_gym gyms dtg = cg.gym
     ∧ cg.date ≤ dtg
     ∧ (∀ x ∈ gyms, x.date ≤ dtg → x.date ≤ cg.date)
     ∧ (∃ l₁ l₂, gyms = l₁ ++ cg :: l₂ ∧ ∀ x ∈ l₂, dtg < x.date)
     ∧ (∀ x ∈ gyms, x.date = dtg → cg.date = dtg))
    ∧ (get_bodyweight_for_date (some bws) dtb = cb.weight_kg
       ∧ cb.date ≤ dtb
       ∧ (∀ x ∈ bws, x.date ≤ dtb → x.date ≤ cb.date)
       ∧ (∃ l₁ l₂, bws = l₁ ++ cb :: l₂ ∧ ∀ x ∈ l₂, dtb < x.date))
    ∧ (cr.date ≤ dtr
       ∧ (∀ x ∈ routines, x.date ≤ dtr → x.date ≤ cr.date)
       ∧ (∃ l₁ l₂, routines = l₁ ++ cr :: l₂ ∧ ∀ x ∈ l₂, dtr < x.date)
       ∧ (∀ x ∈ routines, x.date = dtr → cr.date = dtr)) := by
  obtain ⟨hg1, hg2, hg3⟩ := getLast_filter_le_spec GymRow.date dtg gyms hg cg hcg
  obtain ⟨hb1, hb2, hb3⟩ := getLast_filter_le_spec BWRow.date dtb bws hb cb hcb
  obtain ⟨hr1, hr2, hr3⟩ := getLast_filter_le_spec RoutineRow.date dtr routines hr cr hcr
  refine ⟨⟨?_, hg1, hg2, hg3, ?_⟩, ⟨?_, hb1, hb2, hb3⟩, hr1, hr2, hr3, ?_⟩
  · simp [get_gym, hcg]
  · intro x hx hxeq
    have h1 := hg2 x hx (le_of_eq hxeq)
    omega
  · simp [get_bodyweight_for_date, hcb]
  · intro x hx hxeq
    have h1 := hr2 x hx (le_of_eq hxeq)
    omega

/-- C3 witness: the theorem applied to the concrete sorted gym, bodyweight
and routine fixtures. -/
theorem asof_latest_entry_tiebreak_witness :
    get_gym gymRowsW 1500 = "A"
    ∧ get_bodyweight_for_date (some bwRowsW) 3000 = (82 : ℚ)
    ∧ ({ date := 0, routine_id := "PPL", routine_label := some "Push Pull Legs" }
        : RoutineRow).date ≤ 1500 := by
  have h := asof_latest_entry_tiebreak gymRowsW bwRowsW rRowsW 1500 3000 1500
    { date := 0, gym := "A" } { date := 2880, weight_kg := 82 }
    { date := 0, routine_id := "PPL", routine_label := some "Push Pull Legs" }
    (by simp [gymRowsW, List.pairwise_cons]) (by simp [bwRowsW, List.pairwise_cons])
    (by simp [rRowsW, List.pairwise_cons]) rfl rfl rfl
  exact ⟨h.1.1, h.2.1.1, h.2.2.1⟩

/-- C9: over a sorted non-empty routine series with at least one entry on or
before the query, the resolution returns the display label of the resolved
entry together with its validity window — the window starts at the resolved
entry's date, ends at the date of the next chronological entry (the earliest
entry dated strictly later), and reads Present exactly when the resolved
entry is the last one of the series. -/
theorem routine_label_window (routines : List RoutineRow) (dt : Int) (c : RoutineRow)
    (hsort : List.Pairwise (fun a b => a.date ≤ b.date) routines)
    (hc : routine_curr routines dt = some c) :
    (∀ n, (routines.filter (fun r => decide (c.date < r.date))).head? = some n →
        get_fmt_routine routines dt
            = display_label c ++ " (" ++ fmtYmd c.date ++ " - " ++ fmtYmd n.date ++ ")"
          ∧ n ∈ routines ∧ c.date < n.date
          ∧ ∀ m ∈ routines, c.date < m.date → n.date ≤ m.date)
    ∧ ((routines.filter (fun r => decide (c.date < r.date))).head? = none →
        get_fmt_routine routines dt
            = display_label c ++ " (" ++ fmtYmd c.date ++ " - " ++ "Present" ++ ")"
          ∧ routines.getLast? = some c) := by
  constructor
  · intro n hn
    have hval : get_fmt_routine routines dt
        = display_label c ++ " (" ++ fmtYmd c.date ++ " - " ++ fmtYmd n.date ++ ")" := by
      simp only [get_fmt_routine, hc]
      rw [hn]
    have hpq : List.Pairwise (fun a b : RoutineRow => a.date ≤ b.date)
        (routines.filter (fun r => decide (c.date < r.date))) :=
      List.Pairwise.sublist (List.filter_sublist _) hsort
    rcases hq : routines.filter (fun r => decide (c.date < r.date)) with _ | ⟨b, u⟩
    · rw [hq] at hn
      simp at hn
    · rw [hq] at hn
      have hbn : b = n := by simpa using hn
      rw [hq, List.pairwise_cons] at hpq
      have hmemf : n ∈ routines.filter (fun r => decide (c.date < r.date)) := by
        rw [hq, ← hbn]
        exact List.mem_cons_self _ _
      have hmem := List.mem_filter.mp hmemf
      refine ⟨hval, hmem.1, by simpa using hmem.2, ?_⟩
      intro m hm hlt
      have hmf : m ∈ routines.filter (fun r => decide (c.date < r.date)) :=
        List.mem_filter.mpr ⟨hm, by simpa using hlt⟩
      rw [hq] at hmf
      rcases List.mem_cons.mp hmf with rfl | hmu
      · rw [hbn]
      · have h2 := hpq.1 m hmu
        rwa [hbn] at h2
  · intro hnone
    have hval : get_fmt_routine routines dt
        = display_label c ++ " (" ++ fmtYmd c.date ++ " - " ++ "Present" ++ ")" := by
      simp only [get_fmt_routine, hc]
      rw [hnone]
    have hfil : routines.filter (fun r => decide (c.date < r.date)) = [] :=
      List.head?_eq_none_iff.mp hnone
    refine ⟨hval, ?_⟩
    obtain ⟨hcle, hmax, l₁, l₂, heq, hafter⟩ :=
      getLast_filter_le_spec RoutineRow.date dt routines hsort c hc
    have hall : ∀ x ∈ routines, ¬(c.date < x.date) := fun x hx => by
      simpa using List.filter_eq_nil_iff.mp hfil x hx
    have hl2 : l₂ = [] := by
      cases l₂ with
      | nil => rfl
      | cons y ys =>
        exfalso
        have hy : y ∈ routines := by
          rw [heq]
          exact List.mem_append_right _ (List.mem_cons_of_mem _ (List.mem_cons_self _ _))
        have h1 : dt < y.date := hafter y (List.mem_cons_self _ _)
        have h2 := hall y hy
        omega
    rw [heq, hl2]
    exact List.getLast?_concat _

/-- C9 witness: the theorem applied to the sorted routine fixture at a query
inside the first routine's window. -/
theorem routine_label_window_witness :
    get_fmt_routine rRowsW 1500
        = display_label { date := 0, routine_id := "PPL", routine_label := some "Push Pull Legs" }
          ++ " (" ++ fmtYmd 0 ++ " - "
          ++ fmtYmd ({ date := 2880, routine_id := "UL", routine_label := none } : RoutineRow).date
          ++ ")"
    ∧ ({ date := 2880, routine_id := "UL", routine_label := none } : RoutineRow) ∈ rRowsW := by
  have h := (routine_label_window rRowsW 1500
    { date := 0, routine_id := "PPL", routine_label := some "Push Pull Legs" }
    (by simp [rRowsW, List.pairwise_cons]) rfl).1
    { date := 2880, routine_id := "UL", routine_label := none } rfl
  exact ⟨h.1, h.2.1⟩

/-- C10: the bodyweight resolution returns the default `70.0` exactly when
the series is absent or empty; for a non-empty series with no sample on or
before the query it returns the weight of the first row in source order;
the loader never re-sorts the bodyweight series (it is stored as read); and
when qualifying samples exist the one selected is the last qualifying entry
in source order. -/
theorem bodyweight_fallback_first_row :
    (∀ dt : Int, get_bodyweight_for_date none dt = 70)
    ∧ (∀ dt : Int, get_bodyweight_for_date (some []) dt = 70)
    ∧ (∀ (rows : List BWRow) (dt : Int) (r0 : BWRow), rows.head? = some r0 →
        rows.filter (fun r => decide (r.date ≤ dt)) = [] →
        get_bodyweight_for_date (some rows) dt = r0.weight_kg)
    ∧ (∀ (fs : FS) (L : Loader) (warns : List String),
        load_all fs = Except.ok (L, warns) → L.bodyweight_data = fs.bodyweight)
    ∧ (∀ (rows : List BWRow) (dt : Int) (c : BWRow),
        (rows.filter (fun r => decide (r.date ≤ dt))).getLast? = some c →
        get_bodyweight_for_date (some rows) dt = c.weight_kg) := by
  refine ⟨fun dt => rfl, fun dt => rfl, ?_, ?_, ?_⟩
  · intro rows dt r0 hh hfil
    simp [get_bodyweight_for_date, hfil, hh]
  · intro fs L warns h
    rcases hw : fs.workout with _ | w <;> rcases hc : fs.catalog with _ | c <;>
      simp [load_all, hw, hc] at h
    · obtain ⟨h1, h2⟩ := h
      rw [← h1]
    · obtain ⟨h1, h2⟩ := h
      rw [← h1]
  · intro rows dt c hc
    simp [get_bodyweight_for_date, hc]

/-- C10 witness: the theorem applied at concrete series — absent and empty
series give the default, a future-only series gives its first row, loading
keeps the bodyweight source order, and a populated query selects the last
qualifying row. -/
theorem bodyweight_fallback_first_row_witness :
    get_bodyweight_for_date none 0 = 70
    ∧ get_bodyweight_for_date (some []) 0 = 70
    ∧ get_bodyweight_for_date (some bwCexRows) 0 = (80 : ℚ)
    ∧ LW.bodyweight_data = fsW.bodyweight
    ∧ get_bodyweight_for_date (some bwRowsW) 3000 = (82 : ℚ) := by
  have h := bodyweight_fallback_first_row
  exact ⟨h.1 0, h.2.1 0, h.2.2.1 bwCexRows 0 { date := 1000, weight_kg := 80 } rfl rfl,
    h.2.2.2.1 fsW LW [catalogWarning] rfl,
    h.2.2.2.2 bwRowsW 3000 { date := 2880, weight_kg := 82 } rfl⟩

/-- C6: loading fails exactly when the mandatory set log is missing; with
the set log present, loading succeeds and the pipeline runs, surfacing the
warning-level catalog signal exactly when the catalog is missing, resolving
bodyweight to the constant default when the bodyweight series is absent, and
attributing the constant Unknown gym and routine when those series are
absent. -/
theorem load_error_handling (fs : FS) :
    ((run_pipeline fs).isOk = fs.workout.isSome)
    ∧ (∀ rows hs, fs.workout = some (rows, hs) →
        ∃ L warns, load_all fs = Except.ok (L, warns)
          ∧ (fs.catalog = none → warns = [catalogWarning])
          ∧ (fs.catalog ≠ none → warns = [])
          ∧ (fs.bodyweight = none →
              ∀ dt : Int, get_bodyweight_for_date L.bodyweight_data dt = 70)
          ∧ (fs.gym = none → ∀ e ∈ process_data L, e.gym = "Unknown")
          ∧ (fs.routines = none → ∀ e ∈ process_data L, e.routine_name = "Unknown")) := by
  constructor
  · rcases hw : fs.workout with _ | w
    · simp [run_pipeline, load_all, hw, Except.isOk, Except.toBool]
    · rcases hc : fs.catalog with _ | c <;>
        simp [run_pipeline, load_all, hw, hc, Except.isOk, Except.toBool]
  · intro rows hs hw
    rcases hc : fs.catalog with _ | c
    · refine ⟨Loader.mk (some rows) [] [] fs.bodyweight (fs.gym.map (sortByKey GymRow.date))
        (fs.routines.map (sortByKey RoutineRow.date)) hs,
        [catalogWarning], ?_, fun _ => rfl, fun hne => absurd rfl hne, ?_, ?_, ?_⟩
      · simp [load_all, hw, hc]
      · intro hb dt
        simp [get_bodyweight_for_date, hb]
      · intro hgym
        apply gym_unknown_of_none
        simp [hgym]
      · intro hrout
        apply routine_unknown_of_none
        simp [hrout]
    · refine ⟨Loader.mk (some rows) c.1 c.2 fs.bodyweight (fs.gym.map (sortByKey GymRow.date))
        (fs.routines.map (sortByKey RoutineRow.date)) hs,
        [], ?_, ?_, fun _ => rfl, ?_, ?_, ?_⟩
      · simp [load_all, hw, hc]
      · intro hn
        exact Option.noConfusion hn
      · intro hb dt
        simp [get_bodyweight_for_date, hb]
      · intro hgym
        apply gym_unknown_of_none
        simp [hgym]
      · intro hrout
        apply routine_unknown_of_none
        simp [hrout]

/-- C6 witness: the theorem applied to the concrete file system with the set
log present and every optional source missing. -/
theorem load_error_handling_witness :
    ((run_pipeline fsW).isOk = fsW.workout.isSome)
    ∧ ∃ L warns, load_all fsW = Except.ok (L, warns)
        ∧ (fsW.catalog = none → warns = [catalogWarning])
        ∧ (fsW.catalog ≠ none → warns = [])
        ∧ (fsW.bodyweight = none →
            ∀ dt : Int, get_bodyweight_for_date L.bodyweight_data dt = 70)
        ∧ (fsW.gym = none → ∀ e ∈ process_data L, e.gym = "Unknown")
        ∧ (fsW.routines = none → ∀ e ∈ process_data L, e.routine_name = "Unknown") := by
  have h := load_error_handling fsW
  exact ⟨h.1, h.2 [rawPull] true rfl⟩

end HevyStats
